import Mathlib

/-!
Verification development for the QuickREST2 exploration engine.

The definitions below are a shallow embedding of the Rust sources under
`crates/qr_explore` and `crates/qr_http_resource`.  Rust machine integers are
modelled as `Nat`/`Int` (with an explicit `% 256` where the source casts with
`as u8`), `HashMap`s as association lists with replace-on-insert, Rust panics
and `todo!()`s as `Option`/`Except Unit` failure values, and the third-party
JSON library (`serde_json`, an external collaborator of this repository) as an
abstract parsing function passed in as an argument.  Character classification
(`is_uppercase`, `to_lowercase`) is modelled on ASCII, which is the fragment
exercised by the engine.  The decimal rendering of IEEE doubles is modelled by
an injective placeholder (`F64.render`); no property below depends on it.
-/

namespace QuickREST

/-- HTTP status codes recognized by the engine (qr_http_resource/src/http.rs). -/
inductive HTTPStatus where
  | ok
  | created
  | noContent
  | badRequest
  | unauthorized
  | forbidden
  | notFound
  | methodNotAllowed
  | unsupportedMediaType
  | internalServerError
  | defaultStatus
  | unsupported
  deriving DecidableEq

/-- HTTP methods (qr_http_resource/src/http.rs, `HTTPMethod`). -/
inductive HTTPMethod where
  | get
  | delete
  | post
  | put
  | unsupported
  deriving DecidableEq

/-- Where an operation parameter goes in an HTTP request (`HTTPParameterTarget`). -/
inductive HTTPParameterTarget where
  | path
  | formData
  | query
  | body
  | unsupported
  deriving DecidableEq

mutual

/-- Value schemas of the abstract operation model (qr_explore/src/amos.rs,
`Schema`); `object` carries its properties, each a named sub-schema
(`Property`). -/
inductive Schema where
  | reference (r : String)
  | object (properties : List Property)
  | arrayOfUniqueRefItems (r : String)
  | arrayOfString
  | arrayOfRefItems (r : String)
  | dateTime
  | ipv4
  | string
  | stringNonEmpty
  | stringDateTime
  | stringRegex (regex : String)
  | number
  | double
  | float
  | int
  | int8
  | int32
  | bool
  | file
  | unsupported

/-- A named sub-schema of an `object` (amos.rs, `Property`). -/
inductive Property where
  | mk (name : String) (schema : Schema)

end

/-- Name of a `Property` (amos.rs, `Property.name`). -/
def Property.name : Property → String
  | .mk n _ => n

/-- Schema of a `Property` (amos.rs, `Property.schema`). -/
def Property.schema : Property → Schema
  | .mk _ s => s

mutual

/-- Structural equality of schemas, modelling the derived `PartialEq` on
`Schema` in amos.rs. -/
def Schema.beq : Schema → Schema → Bool
  | .reference a, .reference b => a == b
  | .object ps, .object qs => Property.listBeq ps qs
  | .arrayOfUniqueRefItems a, .arrayOfUniqueRefItems b => a == b
  | .arrayOfString, .arrayOfString => true
  | .arrayOfRefItems a, .arrayOfRefItems b => a == b
  | .dateTime, .dateTime => true
  | .ipv4, .ipv4 => true
  | .string, .string => true
  | .stringNonEmpty, .stringNonEmpty => true
  | .stringDateTime, .stringDateTime => true
  | .stringRegex a, .stringRegex b => a == b
  | .number, .number => true
  | .double, .double => true
  | .float, .float => true
  | .int, .int => true
  | .int8, .int8 => true
  | .int32, .int32 => true
  | .bool, .bool => true
  | .file, .file => true
  | .unsupported, .unsupported => true
  | _, _ => false

/-- Structural equality of properties (derived `PartialEq` on `Property`). -/
def Property.beq : Property → Property → Bool
  | .mk n1 s1, .mk n2 s2 => n1 == n2 && Schema.beq s1 s2

/-- Element-wise equality of property lists (`PartialEq` on `Vec<Property>`). -/
def Property.listBeq : List Property → List Property → Bool
  | [], [] => true
  | p :: ps, q :: qs => Property.beq p q && Property.listBeq ps qs
  | _, _ => false

end

/-- Parameter metadata (amos.rs, `ParameterMetaData`). -/
inductive ParameterMetaData where
  | http (target : HTTPParameterTarget)
  deriving DecidableEq

/-- Ownership classification of a parameter (amos.rs, `ParameterOwnership`). -/
inductive ParameterOwnership where
  | owned
  | dependency
  | unknown
  deriving DecidableEq

/-- An operation parameter (amos.rs, `Parameter`). -/
structure Parameter where
  name : String
  schema : Schema
  required : Bool
  ownership : ParameterOwnership
  meta_data : Option ParameterMetaData

/-- An operation response (amos.rs, `Response`). -/
structure Response where
  name : String
  schema : Schema

/-- Operation identity (amos.rs, `OperationInfo`). -/
structure OperationInfo where
  name : String
  key : String
  deriving DecidableEq

/-- Operation metadata (amos.rs, `OperationMetaData`). -/
inductive OperationMetaData where
  | http (url : String) (method : HTTPMethod)
  deriving DecidableEq

/-- An abstract operation (amos.rs, `Operation`). -/
structure Operation where
  info : OperationInfo
  parameters : List Parameter
  responses : List Response
  meta_data : Option OperationMetaData

/-- A named schema definition (amos.rs, `Definition`). -/
structure Definition where
  name : String
  key : String
  schema : Schema

/-- The AMOS domain blob (amos.rs, `Domain`). -/
structure Domain where
  data : String

/-- The abstract model of operations (amos.rs, `AMOS`). -/
structure AMOS where
  name : String
  domain : Domain
  definitions : List Definition
  operations : List Operation

/-- Relation metadata between a parameter and an earlier parameter or response
(qr_explore/src/amos_relations.rs, `RelationInfo`); `strength` is a `u8` in the
source, hence the `% 256` at its construction sites. -/
structure RelationInfo where
  operation : String
  name : String
  schema : Schema
  strength : Nat
  op_idx : Nat
  idx : Nat

/-- A relation candidate (amos_relations.rs, `Relation`). -/
inductive Relation where
  | parameter (info : RelationInfo)
  | response (info : RelationInfo)

/-- Bit pattern of an IEEE-754 double; the payload of `DoubleValue`.  Equality
is bit equality (Rust's `f64` `PartialEq` differs on NaN payloads; no claim
depends on that). -/
structure F64 where
  bits : Nat
  deriving DecidableEq

/-- A generated parameter value (qr_explore/src/amos_generation.rs,
`ParameterValue`).  Seeds are `i32` in the source, sizes far from overflow. -/
inductive ParameterValue where
  | stringValue (value : String) (seed : Int) (active : Bool)
  | intValue (value : Int) (seed : Int) (active : Bool)
  | boolValue (value : Bool) (seed : Int) (active : Bool)
  | doubleValue (value : F64) (seed : Int) (active : Bool)
  | ipv4Value (value : Nat × Nat × Nat × Nat) (seed : Int) (active : Bool)
  | reference (active : Bool) (idx : Nat × Nat) (fallback : ParameterValue)
      (relation : Relation)
  | arrayOfString (value : List String) (seed : Int) (active : Bool)
  | file (value : Nat) (seed : Int) (active : Bool)
  | empty

/-- Structural equality of relation infos (derived `PartialEq`). -/
def RelationInfo.beq (a b : RelationInfo) : Bool :=
  a.operation == b.operation && a.name == b.name && Schema.beq a.schema b.schema
    && a.strength == b.strength && a.op_idx == b.op_idx && a.idx == b.idx

/-- Structural equality of relations (derived `PartialEq`). -/
def Relation.beq : Relation → Relation → Bool
  | .parameter a, .parameter b => RelationInfo.beq a b
  | .response a, .response b => RelationInfo.beq a b
  | _, _ => false

/-- Structural equality of parameter values (derived `PartialEq` on
`ParameterValue`). -/
def ParameterValue.beq : ParameterValue → ParameterValue → Bool
  | .stringValue v1 s1 a1, .stringValue v2 s2 a2 => v1 == v2 && s1 == s2 && a1 == a2
  | .intValue v1 s1 a1, .intValue v2 s2 a2 => v1 == v2 && s1 == s2 && a1 == a2
  | .boolValue v1 s1 a1, .boolValue v2 s2 a2 => v1 == v2 && s1 == s2 && a1 == a2
  | .doubleValue v1 s1 a1, .doubleValue v2 s2 a2 => v1 == v2 && s1 == s2 && a1 == a2
  | .ipv4Value v1 s1 a1, .ipv4Value v2 s2 a2 => v1 == v2 && s1 == s2 && a1 == a2
  | .reference a1 i1 f1 r1, .reference a2 i2 f2 r2 =>
      a1 == a2 && i1 == i2 && ParameterValue.beq f1 f2 && Relation.beq r1 r2
  | .arrayOfString v1 s1 a1, .arrayOfString v2 s2 a2 => v1 == v2 && s1 == s2 && a1 == a2
  | .file v1 s1 a1, .file v2 s2 a2 => v1 == v2 && s1 == s2 && a1 == a2
  | .empty, .empty => true
  | _, _ => false

/-- A synthesized parameter (amos_generation.rs, `GeneratedParameter`). -/
structure GeneratedParameter where
  name : String
  value : ParameterValue
  ref_path : Option String

/-- A synthesized operation (amos_generation.rs, `GeneratedOperation`). -/
structure GeneratedOperation where
  name : String
  parameters : List GeneratedParameter

/-- Structural equality of generated parameters (derived `PartialEq`). -/
def GeneratedParameter.beq (a b : GeneratedParameter) : Bool :=
  a.name == b.name && ParameterValue.beq a.value b.value && a.ref_path == b.ref_path

/-- Element-wise equality of generated-parameter lists. -/
def GeneratedParameter.listBeq : List GeneratedParameter → List GeneratedParameter → Bool
  | [], [] => true
  | p :: ps, q :: qs => GeneratedParameter.beq p q && GeneratedParameter.listBeq ps qs
  | _, _ => false

/-- Structural equality of generated operations (derived `PartialEq`). -/
def GeneratedOperation.beq (a b : GeneratedOperation) : Bool :=
  a.name == b.name && GeneratedParameter.listBeq a.parameters b.parameters

/-- Result metadata of one invocation (amos.rs, `ResultMetaData`). -/
inductive ResultMetaData where
  | http (url : String) (status : HTTPStatus)
  deriving DecidableEq

/-- The result of invoking one operation (amos.rs, `InvokeResult`). -/
structure InvokeResult where
  operation : GeneratedOperation
  result : String
  success : Bool
  meta_data : Option ResultMetaData

/-- Structural equality of invoke results (derived `PartialEq` on
`InvokeResult`; §4.10's "same operation, same payload string, same success
flag, same status+URL"). -/
def InvokeResult.beq (a b : InvokeResult) : Bool :=
  GeneratedOperation.beq a.operation b.operation && a.result == b.result
    && a.success == b.success && a.meta_data == b.meta_data

/-! ## Meta-property checks (qr_explore/src/meta_properties.rs)

The Rust predicates compare against `invocation_result[0]`; on the empty slice
the `all` closure is never evaluated, so the index is never taken.  The
head-pattern below reproduces exactly that behaviour. -/

/-- `check_response_inequality`: all results equal the first. -/
def check_response_inequality : List InvokeResult → Bool
  | [] => true
  | r0 :: rest => (r0 :: rest).all fun r => InvokeResult.beq r r0

/-- `check_response_equality`: negation of `check_response_inequality`. -/
def check_response_equality (rs : List InvokeResult) : Bool :=
  !check_response_inequality rs

/-- `check_state_mutation`: all results equal the first. -/
def check_state_mutation : List InvokeResult → Bool
  | [] => true
  | r0 :: rest => (r0 :: rest).all fun r => InvokeResult.beq r r0

/-- `check_state_identity_with_observation`: when the list has more than one
element and first equals last, delegate to `check_state_mutation`; otherwise
true.  `rs[0]` and `rs[len - 1]` are taken through `head?`/`getLast?`, which
agree with the source's indexing whenever `1 < rs.length`. -/
def check_state_identity_with_observation (rs : List InvokeResult) : Bool :=
  if 1 < rs.length then
    match rs.head?, rs.getLast? with
    | some a, some b => if InvokeResult.beq a b then check_state_mutation rs else true
    | _, _ => true
  else true

/-- `check_response`: walk the results; at the first result that carries
metadata, return whether its status differs from 500; results without metadata
are skipped. -/
def check_response : List InvokeResult → Bool
  | [] => true
  | r :: rest =>
    match r.meta_data with
    | some (.http _ status) => status != HTTPStatus.internalServerError
    | none => check_response rest

/-! ## Concrete invocation results used by counterexamples and witnesses -/

/-- A parameterless generated GET used by the concrete scenarios. -/
def genOpGet : GeneratedOperation := ⟨"get_persons", []⟩

/-- Invocation result with payload "X" and status 200. -/
def resX : InvokeResult := ⟨genOpGet, "X", true, some (.http "u" .ok)⟩

/-- Invocation result with payload "Y" and status 200. -/
def resY : InvokeResult := ⟨genOpGet, "Y", true, some (.http "u" .ok)⟩

/-- Invocation result with status 500. -/
def res500 : InvokeResult := ⟨genOpGet, "boom", false, some (.http "u" .internalServerError)⟩

/-- C1: counterexample to the claim as stated.  For the payload trace X, Y, X
(length three, first equals last, middle differs), the state-identity
predicate returns `false`, not `true`: first equals last, so the predicate
delegates to `check_state_mutation`, which fails on the differing middle
result.  A predicate failure is precisely what the explorer treats as a
witness, so a witness IS emitted for this trace. -/
theorem C1_cex : check_state_identity_with_observation [resX, resY, resX] = false := rfl

/-- C1 (amended): for any three-element invocation list whose first and last
results are structurally equal and whose middle result differs from the first,
`check_state_identity_with_observation` returns `false` (the trace is a
state-identity witness). -/
theorem C1_xyx_returns_false (a b c : InvokeResult)
    (h1 : InvokeResult.beq a c = true) (h2 : InvokeResult.beq b a = false) :
    check_state_identity_with_observation [a, b, c] = false := by
  simp [check_state_identity_with_observation, check_state_mutation, h1, h2,
    List.getLast?]

/-- C1: witness instantiating `C1_xyx_returns_false` on the concrete X, Y, X
trace. -/
theorem C1_witness : check_state_identity_with_observation [resX, resY, resX] = false :=
  C1_xyx_returns_false resX resY resX rfl rfl

/-- First metadata in result order: the spec-level reading of the loop in
`check_response`, which returns at the first result carrying metadata. -/
def firstResultMeta (rs : List InvokeResult) : Option ResultMetaData :=
  rs.findSome? fun r => r.meta_data

/-- C2: counterexample to the claim as stated.  The list contains a result
with HTTP status 500 (`res500`), yet `check_response` returns `true`, because
the loop in the source returns at the FIRST result that carries metadata
(here `resX`, status 200) and never inspects the rest. -/
theorem C2_cex :
    res500.meta_data = some (.http "u" .internalServerError)
      ∧ check_response [resX, res500] = true :=
  ⟨rfl, rfl⟩

/-- C2 (amended): `check_response` returns `false` iff the FIRST result that
carries HTTP metadata has status 500; results after it are never inspected
(and results without metadata are skipped). -/
theorem C2_first_meta_decides (rs : List InvokeResult) :
    check_response rs = false
      ↔ ∃ url, firstResultMeta rs = some (.http url .internalServerError) := by
  induction rs with
  | nil => simp [check_response, firstResultMeta]
  | cons r rest ih =>
    cases hm : r.meta_data with
    | none => simpa [check_response, firstResultMeta, hm] using ih
    | some md =>
      cases md with
      | http url status =>
        simp only [check_response, firstResultMeta, List.findSome?, hm]
        by_cases hs : status = HTTPStatus.internalServerError
        · subst hs
          simp
        · simp [bne, hs]

/-! ## The Invoker loop (qr_explore/src/explore.rs, `invoke`)

The exploration context, tracing spans and event publication have no bearing
on which operations are invoked and which results are collected; the loop is
modelled with the request builder (`build_request`, which wraps HTTP
translation) and the injected transport function (`ctx.http_send_fn`) passed
in as function arguments.  `build_request` returning `none` aborts the whole
sequence through the `?` operator; a transport `none` is filtered by the
`if let Some` and the loop continues. -/

/-- HTTP request parameters (qr_http_resource/src/http.rs, `HTTPParameters`);
the `HashMap`s are modelled as association lists with replace-on-insert. -/
structure HTTPParameters where
  url : String
  form_data : Option (List (String × String))
  file_data : Option (List (String × String))
  body : Option (List (String × String))
  deriving DecidableEq

/-- A fully materialized HTTP request (http.rs, `HTTPCall`). -/
structure HTTPCall where
  url : String
  method : HTTPMethod
  parameters : HTTPParameters

/-- The Invoker loop of `explore.rs::invoke`, abstracted over the request
builder and the transport function. -/
def invoke (build : GeneratedOperation → List InvokeResult → Option HTTPCall)
    (send : GeneratedOperation → HTTPCall → Option InvokeResult) :
    List GeneratedOperation → List InvokeResult → Option (List InvokeResult)
  | [], results => some results
  | gen_op :: rest, results =>
    match build gen_op results with
    | none => none
    | some call =>
      match send gen_op call with
      | some invoke_result => invoke build send rest (results ++ [invoke_result])
      | none => invoke build send rest results

/-- Transport builder used by the C3 counterexample: translation always
succeeds. -/
def cexBuild : GeneratedOperation → List InvokeResult → Option HTTPCall :=
  fun _ _ => some ⟨"u", .get, ⟨"u", none, none, none⟩⟩

/-- Transport function used by the C3 counterexample: the transport fails
(yields no `InvokeResult`) for every operation except `get_persons`. -/
def cexSend : GeneratedOperation → HTTPCall → Option InvokeResult :=
  fun g _ => if g.name = "get_persons" then some resX else none

/-- A generated operation on which `cexSend` fails. -/
def genOpFail : GeneratedOperation := ⟨"post_fails", []⟩

/-- C3: counterexample to the claim as stated.  The transport returns no
`InvokeResult` for the first operation, yet the Invoker does NOT abort: it
invokes the second operation and returns `some` result list (containing the
second operation's result).  Only `build_request` returning `none` aborts the
sequence. -/
theorem C3_cex : invoke cexBuild cexSend [genOpFail, genOpGet] [] = some [resX] := rfl

/-- C3 (amended): when translation succeeds but the transport yields no
`InvokeResult` for a step, the Invoker merely skips that step's result and
continues with the remaining operations unchanged. -/
theorem C3_transport_failure_skips (build : GeneratedOperation → List InvokeResult → Option HTTPCall)
    (send : GeneratedOperation → HTTPCall → Option InvokeResult)
    (g : GeneratedOperation) (rest : List GeneratedOperation)
    (results : List InvokeResult) (call : HTTPCall)
    (hb : build g results = some call) (hs : send g call = none) :
    invoke build send (g :: rest) results = invoke build send rest results := by
  simp [invoke, hb, hs]

/-- C3: witness instantiating `C3_transport_failure_skips` on the concrete
failing transport. -/
theorem C3_witness :
    invoke cexBuild cexSend [genOpFail, genOpGet] [] = invoke cexBuild cexSend [genOpGet] [] :=
  C3_transport_failure_skips cexBuild cexSend genOpFail [genOpGet] []
    ⟨"u", .get, ⟨"u", none, none, none⟩⟩ rfl rfl

/-! ## String helpers shared by the bucket classifier, AMOS resolution and
HTTP translation -/

/-- Split a character list at `'/'`, keeping empty segments — the behaviour of
Rust's `str::split('/')`, which yields `[""]` on the empty string. -/
def splitOnSlash : List Char → List (List Char)
  | [] => [[]]
  | c :: cs =>
    let r := splitOnSlash cs
    if c = '/' then [] :: r
    else
      match r with
      | [] => [[c]]
      | s :: ss => (c :: s) :: ss

/-- Count of URL segments that start with a brace: the `init_bucket`
computation of `Buckets::new` (`url.split('/').filter(starts_with('{')).len()`). -/
def countPlaceholderSegments (url : String) : Nat :=
  ((splitOnSlash url.data).filter fun seg => seg.head? == some '\x7b').length

/-- Rust's `url.ends_with('}')`. -/
def urlEndsWithBrace (url : String) : Bool :=
  url.data.getLast? == some '\x7d'

/-- Decimal digits of a natural number, accumulator style; the first argument
is fuel (`n + 1` always suffices). -/
def natToStringAux : Nat → Nat → List Char → List Char
  | 0, _, acc => acc
  | fuel + 1, n, acc =>
    let d := Char.ofNat (48 + n % 10)
    if n < 10 then d :: acc else natToStringAux fuel (n / 10) (d :: acc)

/-- Decimal rendering of a natural number (Rust `usize`/`u8` `to_string`). -/
def natToString (n : Nat) : String :=
  String.mk (natToStringAux (n + 1) n [])

/-- Decimal rendering of an integer (Rust `i64`/`i32` `to_string`). -/
def intToString (i : Int) : String :=
  if i < 0 then "-" ++ natToString i.natAbs else natToString i.natAbs

/-! ## Bucket classifier (qr_explore/src/amos_buckets.rs) -/

/-- CRUD kind of a bucket item (amos_buckets.rs, `BucketKind`). -/
inductive BucketKind where
  | create
  | read
  | update
  | delete
  deriving DecidableEq

/-- One classified operation (amos_buckets.rs, `BucketItem`); `precedence` is
a `u8` in the source — the construction site truncates with `% 256`,
modelling `bucket as u8`. -/
structure BucketItem where
  precedence : Nat
  kind : BucketKind
  name : String
  url : String
  method : HTTPMethod

/-- The classifier output (amos_buckets.rs, `Buckets`); the
`HashMap<u8, Vec<usize>>` index is modelled as an association list. -/
structure Buckets where
  items : List BucketItem
  index : List (Nat × List Nat)

/-- Append an item index under a precedence key, mirroring the
`index.get_mut`/`insert` branch in `Buckets::new`. -/
def indexInsert : List (Nat × List Nat) → Nat → Nat → List (Nat × List Nat)
  | [], prec, idx => [(prec, [idx])]
  | (p, v) :: rest, prec, idx =>
    if p = prec then (p, v ++ [idx]) :: rest else (p, v) :: indexInsert rest prec idx

/-- Build the precedence index over the classified items. -/
def buildIndex (items : List BucketItem) : List (Nat × List Nat) :=
  items.enum.foldl (fun ix pair => indexInsert ix pair.2.precedence pair.1) []

/-- The `(bucket, kind)` assignment of `Buckets::new` for one operation's URL
and method; `none` models the `panic!()` on an unsupported method. -/
def classifyHTTP (url : String) (method : HTTPMethod) : Option (Nat × BucketKind) :=
  let init_bucket := countPlaceholderSegments url
  match method with
  | .get =>
    some (if init_bucket > 0 then
            if urlEndsWithBrace url then (init_bucket, .read) else (init_bucket + 1, .read)
          else (init_bucket, .read))
  | .delete => some (init_bucket + 2, .delete)
  | .post =>
    some (if init_bucket > 0 then
            if urlEndsWithBrace url then (init_bucket, .create) else (init_bucket + 1, .update)
          else (init_bucket, .create))
  | .put =>
    some (if init_bucket > 0 then
            if urlEndsWithBrace url then (init_bucket, .update) else (init_bucket + 1, .update)
          else (init_bucket, .update))
  | .unsupported => none

/-- `Buckets::new`: classify every operation that carries HTTP metadata
(operations without metadata are skipped), then index by precedence. -/
def Buckets.new (ops : List Operation) : Option Buckets := do
  let items ← ops.foldlM
    (fun acc op =>
      match op.meta_data with
      | some (.http url method) => do
        let bk ← classifyHTTP url method
        pure (acc ++ [(⟨bk.1 % 256, bk.2, op.info.name, url, method⟩ : BucketItem)])
      | none => pure acc)
    []
  pure ⟨items, buildIndex items⟩

/-- A DELETE whose URL template consists of 254 placeholder segments. -/
def deepDeleteUrl : String :=
  String.mk (List.flatten (List.replicate 254 ['/', '\x7b', 'x', '\x7d']))

/-- The operation carrying `deepDeleteUrl`. -/
def deepDeleteOp : Operation :=
  ⟨⟨"deleteDeep", "op/deleteDeep"⟩, [], [], some (.http deepDeleteUrl .delete)⟩

set_option maxRecDepth 20000 in
/-- C7: counterexample to the claim as stated.  For a DELETE whose URL has
`k = 254` placeholders the claim demands precedence `k + 2 = 256`, but the
source stores the precedence as `bucket as u8`, which truncates modulo 256:
the operation lands in bucket 0. -/
theorem C7_cex :
    countPlaceholderSegments deepDeleteUrl = 254
      ∧ (Buckets.new [deepDeleteOp]).map (fun b => b.items.map fun i => i.precedence)
          = some [0] :=
  ⟨rfl, rfl⟩

/-- C7 (amended): with `k` the count of placeholder segments, a GET whose URL
ends with a brace gets precedence `k` (kind Read) provided `k < 256`; a POST
of the same URL shape gets precedence `k` with kind Create provided
`k < 256`; a DELETE gets precedence `k + 2` with kind Delete regardless of
URL shape provided `k + 2 < 256`.  The bounds are forced by the `u8`
truncation exhibited in the counterexample. -/
theorem C7_bucket_precedence :
    (∀ (op : Operation) (url : String), op.meta_data = some (.http url .get) →
      urlEndsWithBrace url = true → countPlaceholderSegments url < 256 →
      (Buckets.new [op]).map (fun b => b.items.map fun i => (i.precedence, i.kind))
        = some [(countPlaceholderSegments url, .read)])
    ∧ (∀ (op : Operation) (url : String), op.meta_data = some (.http url .post) →
      urlEndsWithBrace url = true → countPlaceholderSegments url < 256 →
      (Buckets.new [op]).map (fun b => b.items.map fun i => (i.precedence, i.kind))
        = some [(countPlaceholderSegments url, .create)])
    ∧ (∀ (op : Operation) (url : String), op.meta_data = some (.http url .delete) →
      countPlaceholderSegments url + 2 < 256 →
      (Buckets.new [op]).map (fun b => b.items.map fun i => (i.precedence, i.kind))
        = some [(countPlaceholderSegments url + 2, .delete)]) := by
  refine ⟨?_, ?_, ?_⟩
  · intro op url hmeta hend hk
    simp [Buckets.new, hmeta, classifyHTTP, hend, buildIndex, Nat.mod_eq_of_lt hk]
  · intro op url hmeta hend hk
    simp [Buckets.new, hmeta, classifyHTTP, hend, buildIndex, Nat.mod_eq_of_lt hk]
  · intro op url hmeta hk
    simp [Buckets.new, hmeta, classifyHTTP, buildIndex, Nat.mod_eq_of_lt hk]

/-- A GET on `/persons/{name}`. -/
def wopGet : Operation :=
  ⟨⟨"getPerson", "op/getPerson"⟩, [], [], some (.http "/persons/\x7bname\x7d" .get)⟩

/-- A POST on `/persons/{name}`. -/
def wopPost : Operation :=
  ⟨⟨"postPerson", "op/postPerson"⟩, [], [], some (.http "/persons/\x7bname\x7d" .post)⟩

/-- A DELETE on `/persons/{name}`. -/
def wopDelete : Operation :=
  ⟨⟨"deletePerson", "op/deletePerson"⟩, [], [], some (.http "/persons/\x7bname\x7d" .delete)⟩

/-- C7: witness instantiating `C7_bucket_precedence` on one-placeholder GET,
POST and DELETE operations. -/
theorem C7_witness :
    (Buckets.new [wopGet]).map (fun b => b.items.map fun i => (i.precedence, i.kind))
        = some [(1, .read)]
      ∧ (Buckets.new [wopPost]).map (fun b => b.items.map fun i => (i.precedence, i.kind))
        = some [(1, .create)]
      ∧ (Buckets.new [wopDelete]).map (fun b => b.items.map fun i => (i.precedence, i.kind))
        = some [(3, .delete)] :=
  ⟨C7_bucket_precedence.1 wopGet "/persons/\x7bname\x7d" rfl rfl (by decide),
   C7_bucket_precedence.2.1 wopPost "/persons/\x7bname\x7d" rfl rfl (by decide),
   C7_bucket_precedence.2.2 wopDelete "/persons/\x7bname\x7d" rfl (by decide)⟩

/-! ## AMOS lookup and reference resolution (qr_explore/src/amos.rs) -/

/-- `AMOS::find_operation`: linear scan by operation name. -/
def AMOS.find_operation (a : AMOS) (name : String) : Option Operation :=
  a.operations.find? fun o => o.info.name == name

/-- `AMOS::find_definition`: linear scan by definition name. -/
def AMOS.find_definition (a : AMOS) (name : String) : Option Definition :=
  a.definitions.find? fun d => d.name == name

/-- Rust's `r.split('/').last()` (an `Option` that is in fact always `some`,
since `split` yields at least one segment). -/
def lastSegmentOfRef (r : String) : Option String :=
  ((splitOnSlash r.data).getLast?).map String.mk

/-- `AMOS::resolve_operation`: copy the found operation and rebuild its
parameter list left to right (the `new_params` accumulator of the source).
A `Reference`-schema parameter whose last path segment names an `Object`
definition is replaced by one parameter per property, inheriting `required`,
`ownership` and `meta_data`; if the named definition is found but is not an
object the parameter is pushed unchanged; if the definition is not found
nothing is pushed for this parameter. -/
def AMOS.resolve_operation (a : AMOS) (name : String) : Option Operation :=
  match a.find_operation name with
  | some op =>
    let new_params := op.parameters.foldl
      (fun acc param =>
        match param.schema with
        | .reference r =>
          match lastSegmentOfRef r with
          | some nm =>
            match a.find_definition nm with
            | some definition =>
              match definition.schema with
              | .object properties =>
                acc ++ properties.map fun def_prop =>
                  (⟨def_prop.name, def_prop.schema, param.required, param.ownership,
                    param.meta_data⟩ : Parameter)
              | _ => acc ++ [param]
            | none => acc
          | none => acc
        | _ => acc ++ [param])
      []
    some { op with parameters := new_params }
  | none => none

/-- The per-parameter contribution of resolution, written from the amended
claim: expand an object reference into its properties; keep the parameter
when the referenced definition is found but is not an object; drop it when
no definition of that name exists; keep any non-reference parameter. -/
def resolveParamSpec (a : AMOS) (p : Parameter) : List Parameter :=
  match p.schema with
  | .reference r =>
    match lastSegmentOfRef r with
    | some nm =>
      match a.find_definition nm with
      | some d =>
        match d.schema with
        | .object props =>
          props.map fun q => ⟨q.name, q.schema, p.required, p.ownership, p.meta_data⟩
        | _ => [p]
      | none => []
    | none => []
  | _ => [p]

/-- An operation holding a single parameter whose schema references a
definition that does not exist. -/
def opWithMissingRef : Operation :=
  ⟨⟨"createPerson", "op/createPerson"⟩,
   [⟨"body", .reference "#/definitions/Missing", true, .unknown, some (.http .body)⟩],
   [], some (.http "/persons" .post)⟩

/-- An AMOS with no definitions at all, owning `opWithMissingRef`. -/
def amosMissingDef : AMOS :=
  ⟨"cex", ⟨"TODO"⟩, [], [opWithMissingRef]⟩

/-- C5: counterexample to the claim as stated.  The single parameter of
`createPerson` references the definition `Missing`, which does not exist; the
claim says the parameter is kept unchanged, but `resolve_operation` pushes
nothing in the not-found case: the resolved operation has an empty parameter
list. -/
theorem C5_cex :
    amosMissingDef.find_definition "Missing" = none
      ∧ (amosMissingDef.resolve_operation "createPerson").map
          (fun o => o.parameters.length) = some 0 :=
  ⟨rfl, rfl⟩

/-- C5 (amended): resolution rebuilds the parameter list as the concatenation
of per-parameter contributions: an object reference expands to one parameter
per property inheriting `required`, `ownership` and `meta`; a reference to a
found non-object definition keeps the parameter unchanged; a reference whose
definition is NOT found drops the parameter from the result; non-reference
parameters are kept unchanged. -/
theorem C5_resolution_cases (a : AMOS) (name : String) :
    a.resolve_operation name
      = (a.find_operation name).map fun op =>
          { op with parameters := op.parameters.flatMap (resolveParamSpec a) } := by
  unfold AMOS.resolve_operation
  cases hop : a.find_operation name with
  | none => rfl
  | some op =>
    simp only [Option.map_some]
    congr 1
    have h : ∀ (ps : List Parameter) (acc : List Parameter),
        ps.foldl
          (fun acc param =>
            match param.schema with
            | .reference r =>
              match lastSegmentOfRef r with
              | some nm =>
                match a.find_definition nm with
                | some definition =>
                  match definition.schema with
                  | .object properties =>
                    acc ++ properties.map fun def_prop =>
                      (⟨def_prop.name, def_prop.schema, param.required, param.ownership,
                        param.meta_data⟩ : Parameter)
                  | _ => acc ++ [param]
                | none => acc
              | none => acc
            | _ => acc ++ [param])
          acc
          = acc ++ ps.flatMap (resolveParamSpec a) := by
      intro ps
      induction ps with
      | nil => intro acc; simp
      | cons p ps ih =>
        intro acc
        rw [List.foldl_cons, List.flatMap_cons, ih]
        have hstep : (match p.schema with
            | .reference r =>
              match lastSegmentOfRef r with
              | some nm =>
                match a.find_definition nm with
                | some definition =>
                  match definition.schema with
                  | .object properties =>
                    acc ++ properties.map fun def_prop =>
                      (⟨def_prop.name, def_prop.schema, p.required, p.ownership,
                        p.meta_data⟩ : Parameter)
                  | _ => acc ++ [p]
                | none => acc
              | none => acc
            | _ => acc ++ [p]) = acc ++ resolveParamSpec a p := by
          unfold resolveParamSpec
          cases hs : p.schema with
          | reference r =>
            cases hl : lastSegmentOfRef r with
            | none => simp [hl]
            | some nm =>
              cases hd : a.find_definition nm with
              | none => simp [hl, hd]
              | some d =>
                cases hds : d.schema <;> simp [hl, hd, hds]
          | _ => simp
        rw [hstep, List.append_assoc]
    simpa using h op.parameters []

/-! ## Synthesizer (qr_explore/src/synthesize.rs) -/

/-- One operation paired with its generated value slots.  The source uses a
fixed `[ParameterValue; 10]` array; the embedding uses a list (the witnesses
instantiate it with ten slots where array length matters). -/
abbrev OpVals := Operation × List ParameterValue

/-- `ParameterValue::seed`; `none` models the source's panic on the variants
the method does not support. -/
def ParameterValue.seed : ParameterValue → Option Int
  | .stringValue _ s _ => some s
  | .intValue _ s _ => some s
  | .file _ s _ => some s
  | _ => none

/-- `ParameterValue::active` (total in the source). -/
def ParameterValue.active : ParameterValue → Bool
  | .stringValue _ _ a => a
  | .intValue _ _ a => a
  | .boolValue _ _ a => a
  | .doubleValue _ _ a => a
  | .reference a _ _ _ => a
  | .arrayOfString _ _ a => a
  | .ipv4Value _ _ a => a
  | .file _ _ a => a
  | .empty => false

/-- The reference-chain loop of `synthesize_operation` (synthesize.rs lines
48–98), with explicit fuel.  `some (.ok info)` is the loop exiting with the
final `ref_info`; `some (.error ())` models the panics inside the loop (array
index out of bounds, or the "Broken reference chain" panic on `Empty`);
`none` is exhausted fuel. -/
def followChain (ops : List OpVals) : RelationInfo → Nat → Option (Except Unit RelationInfo)
  | _, 0 => none
  | info, fuel + 1 =>
    match ops.get? info.op_idx with
    | none => some (.error ())
    | some opv =>
      match opv.2.get? info.idx with
      | none => some (.error ())
      | some v =>
        match v with
        | .reference _ _ _ (.response _) => some (.ok info)
        | .reference _ _ _ (.parameter info2) => followChain ops info2 fuel
        | .empty => some (.error ())
        | _ => some (.ok info)

/-- Fuel that is always sufficient for a terminating chain: the step relation
is deterministic in the visited `(op_idx, idx)` slot, so a chain that ever
revisits a slot cycles forever, and a terminating chain visits each slot at
most once. -/
def chainFuel (ops : List OpVals) : Nat :=
  ops.foldl (fun n opv => n + opv.2.length) 0 + 1

/-- Outcome of processing one value slot in `synthesize_operation`'s loop:
panic, `continue`, or push one generated parameter. -/
inductive SlotStep where
  | panic
  | skip
  | push (gp : GeneratedParameter)

/-- The body of `synthesize_operation`'s slot loop for slot `i` holding value
`v`.  Primitive values are pushed under the parameter's name unless the
parameter is non-required and the seed exceeds 5 (the drop never consults the
parameter's HTTP target); an active parameter reference is chased through
`followChain` and the resolved value pushed; an active response reference is
pushed as-is; an inactive reference is pushed under the literal name
`"REFERENCE - Inactive"` with the fallback as value; `Empty` is skipped. -/
def synthSlot (ops : List OpVals) (op : Operation) (i : Nat) (v : ParameterValue) : SlotStep :=
  match v with
  | .stringValue _ _ _ | .boolValue _ _ _ | .doubleValue _ _ _ | .arrayOfString _ _ _
  | .intValue _ _ _ | .file _ _ _ | .ipv4Value _ _ _ =>
    match op.parameters.get? i with
    | none => .panic
    | some p =>
      if !p.required then
        match v.seed with
        | none => .panic
        | some s => if s > 5 then .skip else .push ⟨p.name, v, none⟩
      else .push ⟨p.name, v, none⟩
  | .reference active _ fallback relation =>
    if active then
      match relation with
      | .parameter info =>
        match followChain ops info (chainFuel ops) with
        | none => .panic
        | some (.error _) => .panic
        | some (.ok fi) =>
          match ops.get? fi.op_idx with
          | none => .panic
          | some resolved =>
            match resolved.2.get? fi.idx with
            | none => .panic
            | some rv =>
              if ParameterValue.beq rv .empty then .panic
              else
                match op.parameters.get? i with
                | none => .panic
                | some p =>
                  .push ⟨p.name, rv,
                    some ("REFERENCE - Active - " ++ resolved.1.info.name ++ "["
                      ++ natToString fi.op_idx ++ "]/" ++ fi.name)⟩
      | .response info =>
        match op.parameters.get? i with
        | none => .panic
        | some p =>
          .push ⟨p.name, v,
            some ("RSP REFERENCE - Active - " ++ info.operation ++ "["
              ++ natToString info.op_idx ++ "]/" ++ natToString info.idx)⟩
    else .push ⟨"REFERENCE - Inactive", fallback, none⟩
  | .empty => .skip

/-- The slot loop of `synthesize_operation` over the value slots starting at
index `i`; `none` models a panic in some slot. -/
def synthSlots (ops : List OpVals) (op : Operation) : Nat → List ParameterValue →
    Option (List GeneratedParameter)
  | _, [] => some []
  | i, v :: vs =>
    match synthSlot ops op i v with
    | .panic => none
    | .skip => synthSlots ops op (i + 1) vs
    | .push gp => (synthSlots ops op (i + 1) vs).map fun rest => gp :: rest

/-- `synthesize_operation` (synthesize.rs): process every value slot of the
drawn operation and package the surviving parameters. -/
def synthesize_operation (ops : List OpVals) (generated_op : OpVals) :
    Option GeneratedOperation :=
  (synthSlots ops generated_op.1 0 generated_op.2).map fun sparams =>
    ⟨generated_op.1.info.name, sparams⟩

/-- Trailing `Empty` slots contribute nothing (they are `continue`d over). -/
theorem synthSlots_replicate_empty (ops : List OpVals) (op : Operation) :
    ∀ (n i : Nat), synthSlots ops op i (List.replicate n .empty) = some [] := by
  intro n
  induction n with
  | zero => intro i; rfl
  | succ n ih =>
    intro i
    simpa [List.replicate, synthSlots, synthSlot] using ih (i + 1)

/-- A slot whose step is `continue` contributes nothing. -/
theorem synthSlots_cons_skip (ops : List OpVals) (op : Operation) (i : Nat)
    (v : ParameterValue) (vs : List ParameterValue)
    (h : synthSlot ops op i v = .skip) :
    synthSlots ops op i (v :: vs) = synthSlots ops op (i + 1) vs := by
  simp [synthSlots, h]

/-- A non-required Path-targeted string parameter. -/
def pathParamOpt : Parameter := ⟨"id", .string, false, .unknown, some (.http .path)⟩

/-- An operation whose only parameter is the optional path parameter. -/
def opWithOptPath : Operation :=
  ⟨⟨"getThing", "op/getThing"⟩, [pathParamOpt], [], some (.http "/things/\x7bid\x7d" .get)⟩

/-- Ten value slots: a primitive string with seed 6 followed by nine `Empty`
slots, as the ten-slot generator produces for a one-parameter operation. -/
def droppedVals : List ParameterValue :=
  .stringValue "v" 6 true :: List.replicate 9 .empty

/-- C4: counterexample to the claim as stated.  The operation's only
parameter is non-required with HTTP target Path and its value has seed 6 > 5;
the claim says Path parameters are never dropped, yet synthesis drops it: the
generated operation has no parameters. -/
theorem C4_cex :
    synthesize_operation [] (opWithOptPath, droppedVals) = some ⟨"getThing", []⟩ := rfl

/-- C4 (amended): a non-required parameter whose primitive value has seed > 5
is dropped from the generated operation REGARDLESS of its HTTP target — the
drop in `synthesize_operation` never consults the parameter's metadata, so
Path parameters are dropped exactly like any others. -/
theorem C4_seed_drop_ignores_target (ops : List OpVals) (nm key url : String)
    (method : HTTPMethod) (pname : String) (sch : Schema) (own : ParameterOwnership)
    (tgt : HTTPParameterTarget) (v : ParameterValue) (s : Int)
    (hseed : v.seed = some s) (hgt : s > 5) :
    synthesize_operation ops
      (⟨⟨nm, key⟩, [⟨pname, sch, false, own, some (.http tgt)⟩], [],
        some (.http url method)⟩, v :: List.replicate 9 .empty)
      = some ⟨nm, []⟩ := by
  have hslot : synthSlot ops
      ⟨⟨nm, key⟩, [⟨pname, sch, false, own, some (.http tgt)⟩], [],
        some (.http url method)⟩ 0 v = .skip := by
    cases v <;> simp_all [ParameterValue.seed, synthSlot]
  unfold synthesize_operation
  rw [synthSlots_cons_skip _ _ _ _ _ hslot, synthSlots_replicate_empty]
  rfl

/-- C4: witness instantiating `C4_seed_drop_ignores_target` on the concrete
optional Path parameter of `opWithOptPath`. -/
theorem C4_witness :
    synthesize_operation [] (opWithOptPath, droppedVals) = some ⟨"getThing", []⟩ :=
  C4_seed_drop_ignores_target [] "getThing" "op/getThing" "/things/\x7bid\x7d"
    .get "id" .string .unknown .path (.stringValue "v" 6 true) 6 rfl (by decide)

/-- A slot holding an inactive reference contributes the generated parameter
named "REFERENCE - Inactive" carrying the wrapper's fallback. -/
theorem synthSlots_inactive_ref_mem (ops : List OpVals) (op : Operation) :
    ∀ (vals : List ParameterValue) (i j : Nat) (l : List GeneratedParameter)
      (ix : Nat × Nat) (fb : ParameterValue) (rel : Relation),
      synthSlots ops op i vals = some l →
      vals.get? j = some (.reference false ix fb rel) →
      (⟨"REFERENCE - Inactive", fb, none⟩ : GeneratedParameter) ∈ l := by
  intro vals
  induction vals with
  | nil => intro i j l ix fb rel h hj; simp at hj
  | cons v vs ih =>
    intro i j l ix fb rel h hj
    cases j with
    | zero =>
      simp only [List.get?] at hj
      injection hj with hv
      subst hv
      simp only [synthSlots, synthSlot, Bool.false_eq_true, if_false] at h
      cases hrest : synthSlots ops op (i + 1) vs with
      | none => rw [hrest] at h; simp at h
      | some rest =>
        rw [hrest] at h
        injection h with hl
        subst hl
        exact List.mem_cons_self _ _
    | succ j =>
      simp only [List.get?] at hj
      cases hstep : synthSlot ops op i v with
      | panic => rw [synthSlots, hstep] at h; simp at h
      | skip =>
        rw [synthSlots, hstep] at h
        exact ih (i + 1) j l ix fb rel h hj
      | push gp =>
        rw [synthSlots, hstep] at h
        cases hrest : synthSlots ops op (i + 1) vs with
        | none => rw [hrest] at h; simp at h
        | some rest =>
          rw [hrest] at h
          injection h with hl
          subst hl
          exact List.mem_cons_of_mem _ (ih (i + 1) j rest ix fb rel hrest hj)

/-- C9: for every generated parameter slot holding an inactive `Reference`
wrapper, synthesis emits a generated parameter whose value is the wrapper's
fallback (under the literal name "REFERENCE - Inactive"). -/
theorem C9_inactive_reference_emits_fallback (ops : List OpVals) (generated_op : OpVals)
    (out : GeneratedOperation) (j : Nat) (ix : Nat × Nat) (fb : ParameterValue)
    (rel : Relation)
    (hsyn : synthesize_operation ops generated_op = some out)
    (hval : generated_op.2.get? j = some (.reference false ix fb rel)) :
    (⟨"REFERENCE - Inactive", fb, none⟩ : GeneratedParameter) ∈ out.parameters := by
  unfold synthesize_operation at hsyn
  cases hsl : synthSlots ops generated_op.1 0 generated_op.2 with
  | none => rw [hsl] at hsyn; simp at hsyn
  | some l =>
    rw [hsl] at hsyn
    injection hsyn with hout
    subst hout
    exact synthSlots_inactive_ref_mem ops generated_op.1 generated_op.2 0 j l ix fb rel hsl hval

/-- The value slots used by the C9 witness: one inactive reference whose
fallback is the string "fb". -/
def inactiveRefVals : List ParameterValue :=
  .reference false (0, 0) (.stringValue "fb" 1 true)
      (.parameter ⟨"getThing", "id", .string, 1, 0, 0⟩)
    :: List.replicate 9 .empty

/-- C9: witness instantiating `C9_inactive_reference_emits_fallback` on a
concrete inactive reference slot. -/
theorem C9_witness :
    (⟨"REFERENCE - Inactive", .stringValue "fb" 1 true, none⟩ : GeneratedParameter)
      ∈ (⟨"getThing",
          [⟨"REFERENCE - Inactive", .stringValue "fb" 1 true, none⟩]⟩ :
            GeneratedOperation).parameters :=
  C9_inactive_reference_emits_fallback [] (opWithOptPath, inactiveRefVals)
    ⟨"getThing", [⟨"REFERENCE - Inactive", .stringValue "fb" 1 true, none⟩]⟩
    0 (0, 0) (.stringValue "fb" 1 true)
    (.parameter ⟨"getThing", "id", .string, 1, 0, 0⟩) rfl rfl

/-! ## Relation finder (qr_explore/src/amos_relations.rs) and the
reference-wrapping pass of the sequence generator
(qr_explore/src/amos_generation.rs, `gen_operation_sequence_added_params`) -/

/-- Lowercase a string; ASCII model of Rust's `str::to_lowercase`. -/
def lowerStr (s : String) : String := String.mk (s.data.map Char.toLower)

/-- Substring containment over character lists (Rust `str::contains`): the
needle occurs at some position of the haystack. -/
def strContains (needle : List Char) : List Char → Bool
  | [] => needle.isEmpty
  | c :: t => needle.isPrefixOf (c :: t) || strContains needle t

/-- `word_contains`: for every word of `a` collect the words of `b` whose
lowercasing contains the lowercased `a`-word. -/
def word_contains (a b : List String) : List String :=
  a.flatMap fun a_word =>
    b.filter fun b_word => strContains (lowerStr a_word).data (lowerStr b_word).data

/-- The accumulator loop of `camel_split`: on an uppercase character the
current part is flushed and restarted; every character is appended to the
current part; the final part is flushed at the end. -/
def camelSplitGo : List Char → String → List String → List String
  | [], part, words => words ++ [part]
  | c :: cs, part, words =>
    if c.isUpper then camelSplitGo cs (String.mk [c]) (words ++ [part])
    else camelSplitGo cs (part.push c) words

/-- `camel_split`: split a name at (ASCII) camel-case boundaries. -/
def camel_split (s : String) : List String := camelSplitGo s.data "" []

/-- The `RelationInfo` carried by either relation variant. -/
def Relation.info : Relation → RelationInfo
  | .parameter r => r
  | .response r => r

/-- `related_parameters` (amos_relations.rs): for the target parameter,
enumerate the already-placed operations; parameters with equal schema and
equal name (full strength) or overlapping camel-case word bags (strength =
overlap size) yield `Parameter` relations, and responses whose operation name
overlaps the parameter name and whose schema is `ArrayOfString` against a
`String` parameter yield `Response` relations.  Strengths are `u8` in the
source (`len() as u8`), hence `% 256`. -/
def related_parameters (operations : List OpVals) (param : Parameter) : List Relation :=
  let camel_param := camel_split param.name
  operations.enum.flatMap fun opE =>
    let op_idx := opE.1
    let o := opE.2.1
    let camel_operation := camel_split o.info.name
    (o.parameters.enum.flatMap fun pE =>
      let param_idx := pE.1
      let p := pE.2
      if Schema.beq p.schema param.schema then
        if p.name == param.name then
          [Relation.parameter
            ⟨o.info.name, p.name, p.schema, camel_param.length % 256, op_idx, param_idx⟩]
        else
          let ms := word_contains camel_param (camel_split p.name)
          if ms.isEmpty then []
          else
            [Relation.parameter
              ⟨o.info.name, p.name, p.schema, ms.length % 256, op_idx, param_idx⟩]
      else [])
    ++ o.responses.enum.flatMap fun rE =>
      let r_idx := rE.1
      let r := rE.2
      let ms := word_contains camel_param camel_operation
      if ms.isEmpty then []
      else
        let schema_match :=
          match r.schema with
          | .arrayOfString => Schema.beq param.schema .string
          | _ => false
        if schema_match then
          [Relation.response
            ⟨o.info.name, r.name, r.schema, ms.length % 256, op_idx, r_idx⟩]
        else []

/-- One slot of the reference-wrapping pass: an active value with at least one
relation candidate is rewrapped as a `Reference` to the candidate selected by
`seed % candidates.len()`, keeping the original value as fallback; `none`
models the panics (`seed()` on an unsupported variant, or the negative-seed
`as usize` index). -/
def addParamsVal (pre : List OpVals) (param : Parameter) (param_value : ParameterValue) :
    Option ParameterValue :=
  if param_value.active then
    let possible := related_parameters pre param
    if possible.isEmpty then some param_value
    else
      match param_value.seed with
      | none => none
      | some s =>
        let choose := Int.tmod s (Int.ofNat possible.length)
        if choose < 0 then none
        else
          match possible.get? choose.toNat with
          | none => none
          | some rel =>
            some (.reference param_value.active (rel.info.op_idx, rel.info.idx)
              param_value rel)
  else some param_value

/-- The inner loop of the wrapping pass: slot `j` is rewritten for every
parameter index `j` of the operation; slots beyond the parameter count are
untouched; `none` models the array index panic when the operation has more
parameters than value slots. -/
def addParamsVals (pre : List OpVals) : List Parameter → List ParameterValue →
    Option (List ParameterValue)
  | [], vs => some vs
  | _ :: _, [] => none
  | p :: ps, v :: vs => do
    let v2 ← addParamsVal pre p v
    let vs2 ← addParamsVals pre ps vs
    pure (v2 :: vs2)

/-- The outer loop of the wrapping pass: operation `i` is rewritten against
the already-rewritten prefix `gen_ops[0..i]`. -/
def addParamsGo : List OpVals → List OpVals → Option (List OpVals)
  | pre, [] => some pre
  | pre, opv :: rest => do
    let vals2 ← addParamsVals pre opv.1.parameters opv.2
    addParamsGo (pre ++ [(opv.1, vals2)]) rest

/-- The pure body of `gen_operation_sequence_added_params`' `prop_map`:
sequences of length at most one are returned unchanged. -/
def gen_operation_sequence_added_params (gen_ops : List OpVals) : Option (List OpVals) :=
  if gen_ops.length > 1 then addParamsGo [] gen_ops else some gen_ops

/-- Every `Parameter→Parameter` link in the sequence points strictly backward:
a reference stored at operation index `k` targets an operation index below
`k`. -/
def BackwardPointing (ops : List OpVals) : Prop :=
  ∀ k opv, ops.get? k = some opv →
    ∀ j a ix fb info, opv.2.get? j = some (.reference a ix fb (.parameter info)) →
      info.op_idx < k

/-- A value that is not a `Reference` wrapper. -/
def noRefVal : ParameterValue → Bool
  | .reference _ _ _ _ => false
  | _ => true

/-- No value slot of any operation holds a `Reference` wrapper — the shape of
every sequence the value generator produces before the wrapping pass
(`gen_parameter_value` only generates primitive values and `Empty`). -/
def noRefsOps (ops : List OpVals) : Bool :=
  ops.all fun opv => opv.2.all noRefVal

/-- Every relation candidate found against a prefix targets an operation
inside that prefix. -/
theorem related_parameters_op_idx_lt (pre : List OpVals) (param : Parameter)
    (rel : Relation) (h : rel ∈ related_parameters pre param) :
    rel.info.op_idx < pre.length := by
  unfold related_parameters at h
  simp only [List.mem_flatMap, List.mem_append] at h
  obtain ⟨opE, hopE, h⟩ := h
  have hlt : opE.1 < pre.length := by
    have := List.fst_lt_of_mem_enum hopE
    simpa using this
  rcases h with ⟨pE, _, h⟩ | ⟨rE, _, h⟩
  · split at h
    · split at h
      · simp only [List.mem_singleton] at h
        subst h
        simpa [Relation.info] using hlt
      · split at h
        · simp at h
        · simp only [List.mem_singleton] at h
          subst h
          simpa [Relation.info] using hlt
    · simp at h
  · split at h
    · simp at h
    · split at h
      · simp only [List.mem_singleton] at h
        subst h
        simpa [Relation.info] using hlt
      · simp at h

/-- The wrapping of one slot either keeps the value or produces a reference to
one of the prefix's relation candidates with the original value as fallback. -/
theorem addParamsVal_shape (pre : List OpVals) (param : Parameter)
    (v v2 : ParameterValue) (h : addParamsVal pre param v = some v2) :
    v2 = v ∨ ∃ rel ∈ related_parameters pre param,
      v2 = .reference v.active (rel.info.op_idx, rel.info.idx) v rel := by
  simp only [addParamsVal] at h
  by_cases ha : v.active = true
  · rw [if_pos ha] at h
    by_cases he : (related_parameters pre param).isEmpty = true
    · rw [if_pos he] at h
      left; injection h with h; exact h.symm
    · rw [if_neg he] at h
      cases hs : v.seed with
      | none => simp only [hs] at h; exact Option.noConfusion h
      | some s =>
        simp only [hs] at h
        by_cases hc : Int.tmod s (Int.ofNat (related_parameters pre param).length) < 0
        · rw [if_pos hc] at h; exact absurd h (by simp)
        · rw [if_neg hc] at h
          cases hg : (related_parameters pre param).get?
              (Int.tmod s (Int.ofNat (related_parameters pre param).length)).toNat with
          | none => rw [hg] at h; exact absurd h (by simp)
          | some rel =>
            rw [hg] at h
            right
            refine ⟨rel, List.get?_mem hg, ?_⟩
            injection h with h
            exact h.symm
  · rw [if_neg ha] at h
    left; injection h with h; exact h.symm

/-- After wrapping one operation's slots against a prefix, every
parameter-relation reference in the slots targets the prefix. -/
theorem addParamsVals_backward (pre : List OpVals) :
    ∀ (ps : List Parameter) (vs vs2 : List ParameterValue),
      addParamsVals pre ps vs = some vs2 →
      (∀ v ∈ vs, noRefVal v = true) →
      ∀ j a ix fb info, vs2.get? j = some (.reference a ix fb (.parameter info)) →
        info.op_idx < pre.length := by
  intro ps
  induction ps with
  | nil =>
    intro vs vs2 h hnr j a ix fb info hj
    injection h with h
    subst h
    have := hnr _ (List.get?_mem hj)
    simp [noRefVal] at this
  | cons p ps ih =>
    intro vs vs2 h hnr j a ix fb info hj
    cases vs with
    | nil => simp [addParamsVals] at h
    | cons v vstail =>
      simp only [addParamsVals, Option.bind_eq_bind, Option.bind_eq_some] at h
      obtain ⟨v2, hv2, h⟩ := h
      obtain ⟨vs2t, hvs2t, h⟩ := h
      injection h with h
      subst h
      cases j with
      | zero =>
        simp only [List.get?] at hj
        injection hj with hj
        rcases addParamsVal_shape pre p v v2 hv2 with hkeep | ⟨rel, hrel, hshape⟩
        · have hv := hnr v (by simp)
          rw [hkeep] at hj
          rw [hj] at hv
          simp [noRefVal] at hv
        · rw [hshape] at hj
          injection hj with _ _ _ hrel2
          have hlt := related_parameters_op_idx_lt pre p rel hrel
          rw [hrel2] at hlt
          simpa [Relation.info] using hlt
      | succ j =>
        simp only [List.get?] at hj
        exact ih vstail vs2t hvs2t (fun w hw => hnr w (by simp [hw])) j a ix fb info hj

/-- Invariant of the outer wrapping loop: starting from a backward-pointing
prefix and reference-free remaining operations, the final sequence is
backward-pointing. -/
theorem addParamsGo_backward :
    ∀ (rest pre out : List OpVals),
      addParamsGo pre rest = some out →
      BackwardPointing pre →
      (∀ opv ∈ rest, ∀ v ∈ opv.2, noRefVal v = true) →
      BackwardPointing out := by
  intro rest
  induction rest with
  | nil =>
    intro pre out h hb _
    injection h with h
    subst h
    exact hb
  | cons opv rest ih =>
    intro pre out h hb hnr
    simp only [addParamsGo, Option.bind_eq_bind, Option.bind_eq_some] at h
    obtain ⟨vals2, hvals2, h⟩ := h
    refine ih (pre ++ [(opv.1, vals2)]) out h ?_ ?_
    · intro k okv hk j a ix fb info hj
      by_cases hlt : k < pre.length
      · rw [List.get?_append hlt] at hk
        exact hb k okv hk j a ix fb info hj
      · have hk2 : k = pre.length := by
          rcases Nat.lt_or_ge k (pre ++ [(opv.1, vals2)]).length with hlen | hlen
          · simp only [List.length_append, List.length_cons, List.length_nil] at hlen
            omega
          · rw [List.get?_eq_none.mpr hlen] at hk
            simp at hk
        subst hk2
        rw [List.get?_append_right (Nat.le_refl _)] at hk
        simp only [Nat.sub_self, List.get?] at hk
        injection hk with hk
        subst hk
        have := addParamsVals_backward pre opv.1.parameters opv.2 vals2 hvals2
          (fun v hv => hnr opv (by simp) v hv) j a ix fb info hj
        simpa using this
    · intro w hw v hv
      exact hnr w (by simp [hw]) v hv

/-- Under the backward invariant the chain loop exits within `op_idx + 1`
steps: each `Parameter→Parameter` hop strictly decreases the target operation
index. -/
theorem followChain_terminates (ops : List OpVals) (hb : BackwardPointing ops) :
    ∀ (fuel : Nat) (info : RelationInfo), info.op_idx < fuel →
      ∃ r, followChain ops info fuel = some r := by
  intro fuel
  induction fuel with
  | zero => intro info h; omega
  | succ fuel ih =>
    intro info hlt
    cases hop : ops.get? info.op_idx with
    | none => exact ⟨.error (), by simp [followChain, ← List.get?_eq_getElem?, hop]⟩
    | some opv =>
      cases hv : opv.2.get? info.idx with
      | none => exact ⟨.error (), by simp [followChain, ← List.get?_eq_getElem?, hop, hv]⟩
      | some v =>
        match v, hv with
        | .reference a ix fb (.response rinfo), hv =>
          exact ⟨.ok info, by simp [followChain, ← List.get?_eq_getElem?, hop, hv]⟩
        | .reference a ix fb (.parameter info2), hv =>
          have hdec : info2.op_idx < info.op_idx :=
            hb info.op_idx opv hop info.idx a ix fb info2 hv
          obtain ⟨r, hr⟩ := ih info2 (by omega)
          exact ⟨r, by simp [followChain, ← List.get?_eq_getElem?, hop, hv, hr]⟩
        | .empty, hv => exact ⟨.error (), by simp [followChain, ← List.get?_eq_getElem?, hop, hv]⟩
        | .stringValue x y z, hv => exact ⟨.ok info, by simp [followChain, ← List.get?_eq_getElem?, hop, hv]⟩
        | .intValue x y z, hv => exact ⟨.ok info, by simp [followChain, ← List.get?_eq_getElem?, hop, hv]⟩
        | .boolValue x y z, hv => exact ⟨.ok info, by simp [followChain, ← List.get?_eq_getElem?, hop, hv]⟩
        | .doubleValue x y z, hv => exact ⟨.ok info, by simp [followChain, ← List.get?_eq_getElem?, hop, hv]⟩
        | .ipv4Value x y z, hv => exact ⟨.ok info, by simp [followChain, ← List.get?_eq_getElem?, hop, hv]⟩
        | .arrayOfString x y z, hv => exact ⟨.ok info, by simp [followChain, ← List.get?_eq_getElem?, hop, hv]⟩
        | .file x y z, hv => exact ⟨.ok info, by simp [followChain, ← List.get?_eq_getElem?, hop, hv]⟩

/-- C6: the reference-wrapping pass only creates `Parameter→Parameter` links
that point strictly backward in the sequence (the candidates are drawn from
the strict prefix), so the chain-following loop of `synthesize_operation`
exits — reaching a non-reference value, a `Response` relation, or a panic
site — within `op_idx + 1` steps for every reference in the generated
sequence. -/
theorem C6_reference_chains_terminate (gen_ops out : List OpVals)
    (hnr : noRefsOps gen_ops = true)
    (hgen : gen_operation_sequence_added_params gen_ops = some out) :
    BackwardPointing out
      ∧ ∀ k opv, out.get? k = some opv →
        ∀ j a ix fb info, opv.2.get? j = some (.reference a ix fb (.parameter info)) →
          ∀ fuel, info.op_idx < fuel → ∃ r, followChain out info fuel = some r := by
  have hnr2 : ∀ opv ∈ gen_ops, ∀ v ∈ opv.2, noRefVal v = true := by
    intro opv hopv v hv
    simp only [noRefsOps, List.all_eq_true] at hnr
    exact hnr opv hopv v hv
  have hback : BackwardPointing out := by
    unfold gen_operation_sequence_added_params at hgen
    split at hgen
    · exact addParamsGo_backward gen_ops [] out hgen (by intro k opv h; simp at h) hnr2
    · injection hgen with hgen
      subst hgen
      intro k opv hk j a ix fb info hj
      have := hnr2 opv (List.get?_mem hk) _ (List.get?_mem hj)
      simp [noRefVal] at this
  exact ⟨hback, fun k opv hk j a ix fb info hj fuel hfuel =>
    followChain_terminates out hback fuel info hfuel⟩

/-- First operation of the C6 witness sequence: a POST with one owned string
parameter named "name". -/
def c6op1 : Operation :=
  ⟨⟨"createA", "op/createA"⟩, [⟨"name", .string, true, .owned, some (.http .body)⟩],
   [], some (.http "/a" .post)⟩

/-- Second operation of the C6 witness sequence: the same parameter name and
schema, so the relation finder links it to `c6op1`. -/
def c6op2 : Operation :=
  ⟨⟨"deleteA", "op/deleteA"⟩, [⟨"name", .string, true, .owned, some (.http .path)⟩],
   [], some (.http "/a/\x7bname\x7d" .delete)⟩

/-- The C6 witness input: two active string slots, no references. -/
def c6ops : List OpVals :=
  [(c6op1, [.stringValue "x" 3 true]), (c6op2, [.stringValue "y" 3 true])]

/-- The C6 witness output: the second operation's slot has been wrapped as a
backward reference to operation 0, slot 0. -/
def c6out : List OpVals :=
  [(c6op1, [.stringValue "x" 3 true]),
   (c6op2, [.reference true (0, 0) (.stringValue "y" 3 true)
      (.parameter ⟨"createA", "name", .string, 1, 0, 0⟩)])]

/-- C6: witness instantiating `C6_reference_chains_terminate` on the concrete
two-operation sequence; the wrapped reference's chain exits with fuel 1. -/
theorem C6_witness :
    ∃ r, followChain c6out ⟨"createA", "name", .string, 1, 0, 0⟩ 1 = some r :=
  (C6_reference_chains_terminate c6ops c6out rfl rfl).2 1
    (c6op2, [.reference true (0, 0) (.stringValue "y" 3 true)
      (.parameter ⟨"createA", "name", .string, 1, 0, 0⟩)]) rfl
    0 true (0, 0) (.stringValue "y" 3 true) ⟨"createA", "name", .string, 1, 0, 0⟩ rfl
    1 (by decide)

/-! ## HTTP translation (qr_explore/src/http_translation.rs)

Panics (`unwrap` on a missing AMOS parameter or metadata, `todo!()`,
"work todo", unsupported conversions, JSON parse failures, result indexing)
are modelled as `Except.error ()`; the source's `return None` sites are
`Except.ok none`; a successful translation is `Except.ok (some _)`.  JSON
parsing by the external `serde_json` crate is abstracted as a
`String → Option Json` argument. -/

/-- JSON values as produced by the external parser (numbers keep their source
text; only the array/string structure is ever inspected). -/
inductive Json where
  | null
  | bool (b : Bool)
  | num (repr : String)
  | str (s : String)
  | arr (items : List Json)
  | obj (fields : List (String × Json))

/-- `parse_response`: an unsuccessful referenced call yields the fallback; an
unparseable payload panics; an empty array yields the fallback; a leading
string in the array yields that string when the parameter schema is `String`
and the fallback otherwise; any other JSON shape panics. -/
def parse_response (parseJson : String → Option Json) (param : Parameter)
    (result : InvokeResult) (fallback : ParameterValue) : Except Unit ParameterValue :=
  if !result.success then .ok fallback
  else
    match parseJson result.result with
    | none => .error ()
    | some content =>
      match content with
      | .arr items =>
        match items with
        | [] => .ok fallback
        | candidate :: _ =>
          match candidate with
          | .str s =>
            if Schema.beq param.schema .string then .ok (.stringValue s 0 false)
            else .ok fallback
          | _ => .error ()
      | _ => .error ()

/-- `HashMap::insert`: replace the value under an existing key, else append. -/
def hashInsert : List (String × String) → String → String → List (String × String)
  | [], k, v => [(k, v)]
  | (k0, v0) :: rest, k, v =>
    if k0 == k then (k0, v) :: rest else (k0, v0) :: hashInsert rest k v

/-- `parameters_to_form_data`: accumulate string renderings of string, int and
file values into a map; any other value variant panics. -/
def parameters_to_form_data (params : List GeneratedParameter) :
    Option (List (String × String)) :=
  params.foldlM
    (fun form_data p =>
      match p.value with
      | .stringValue value _ _ => some (hashInsert form_data p.name value)
      | .intValue value _ _ => some (hashInsert form_data p.name (intToString value))
      | .file value _ _ => some (hashInsert form_data p.name (natToString value))
      | _ => none)
    []

/-- Replace every non-overlapping occurrence of `pat` in the remaining text,
with fuel (the text length always suffices for the nonempty patterns
`"{name}"` used below). -/
def replaceGo (pat rep : List Char) : Nat → List Char → List Char
  | 0, s => s
  | _ + 1, [] => []
  | fuel + 1, c :: cs =>
    if pat.isPrefixOf (c :: cs) then
      rep ++ replaceGo pat rep fuel (List.drop pat.length (c :: cs))
    else c :: replaceGo pat rep fuel cs

/-- Rust's `str::replace`. -/
def strReplace (s pat rep : String) : String :=
  String.mk (replaceGo pat.data rep.data s.data.length s.data)

/-- The URL placeholder `"{" + name + "}"`. -/
def bracePattern (name : String) : String := "\x7b" ++ name ++ "\x7d"

/-- Rendering of an IEEE double (placeholder — see the module comment). -/
def F64.render (v : F64) : String := "f64:" ++ natToString v.bits

/-- The mutable state of `translate_parameters`' loop: the partially
templated URL and the four accumulator vectors. -/
structure TransState where
  translated_url : String
  form_params : List GeneratedParameter
  query_params : List String
  body_params : List GeneratedParameter
  file_params : List GeneratedParameter

/-- Update the partially templated URL of the loop state. -/
def TransState.withUrl (st : TransState) (u : String) : TransState :=
  { st with translated_url := u }

/-- Outcome of processing one generated parameter: return from the whole
function (`halt`) or continue with an updated state. -/
inductive TransOutcome where
  | halt (r : Except Unit (Option HTTPParameters))
  | next (st : TransState)

/-- The body of `translate_parameters`' loop for one generated parameter:
look up the matching AMOS parameter by name (`unwrap` panics when absent),
then dispatch on its HTTP target exactly as the source does. -/
def transStep (parseJson : String → Option Json) (amos_params : List Parameter)
    (results : List InvokeResult) (st : TransState) (p : GeneratedParameter) :
    TransOutcome :=
  match amos_params.find? (fun ap => ap.name == p.name) with
  | none => .halt (.error ())
  | some ap =>
    match ap.meta_data with
    | none => .halt (.error ())
    | some (.http target) =>
      match target with
      | .body =>
        match p.value with
        | .reference _ _ fallback relation =>
          match relation with
          | .response info =>
            match results.get? info.op_idx with
            | none => .halt (.error ())
            | some ref_result =>
              match parse_response parseJson ap ref_result fallback with
              | .error _ => .halt (.error ())
              | .ok ref_parameter =>
                .next { st with body_params :=
                  st.body_params ++ [⟨p.name, ref_parameter, p.ref_path⟩] }
          | .parameter _ => .halt (.error ())
        | _ => .next { st with body_params := st.body_params ++ [p] }
      | .path =>
        match p.value with
        | .stringValue value _ _ =>
          if value == "" then .halt (.ok none)
          else .next (st.withUrl (strReplace st.translated_url (bracePattern p.name) value))
        | .boolValue value _ _ =>
          .next (st.withUrl (strReplace st.translated_url (bracePattern p.name)
            (if value then "true" else "false")))
        | .doubleValue value _ _ =>
          .next (st.withUrl (strReplace st.translated_url (bracePattern p.name) value.render))
        | .arrayOfString value _ _ =>
          .next (st.withUrl (strReplace st.translated_url (bracePattern p.name)
            (String.intercalate "," value)))
        | .intValue value _ _ =>
          .next (st.withUrl (strReplace st.translated_url (bracePattern p.name) (intToString value)))
        | .ipv4Value value _ _ =>
          .next (st.withUrl (strReplace st.translated_url (bracePattern p.name)
            (natToString value.1 ++ "." ++ natToString value.2.1 ++ "."
              ++ natToString value.2.2.1 ++ "." ++ natToString value.2.2.2)))
        | .empty => .halt (.ok none)
        | .reference _ _ fallback relation =>
          match relation with
          | .response info =>
            match results.get? info.op_idx with
            | none => .halt (.error ())
            | some ref_result =>
              match parse_response parseJson ap ref_result fallback with
              | .error _ => .halt (.error ())
              | .ok rp =>
                match rp with
                | .stringValue value _ _ =>
                  if value == "" then .halt (.ok none)
                  else .next (st.withUrl
                    (strReplace st.translated_url (bracePattern p.name) value))
                | .intValue value _ _ =>
                  .next (st.withUrl
                    (strReplace st.translated_url (bracePattern p.name) (intToString value)))
                | _ => .halt (.error ())
          | .parameter _ => .halt (.error ())
        | .file _ _ _ => .halt (.error ())
      | .formData =>
        match p.value with
        | .reference _ _ fallback relation =>
          match relation with
          | .response info =>
            match results.get? info.op_idx with
            | none => .halt (.error ())
            | some ref_result =>
              match parse_response parseJson ap ref_result fallback with
              | .error _ => .halt (.error ())
              | .ok ref_parameter =>
                .next { st with form_params :=
                  st.form_params ++ [⟨p.name, ref_parameter, p.ref_path⟩] }
          | .parameter _ => .halt (.error ())
        | .file _ _ _ => .next { st with file_params := st.file_params ++ [p] }
        | _ => .next { st with form_params := st.form_params ++ [p] }
      | .query =>
        match p.value with
        | .reference _ _ fallback relation =>
          match relation with
          | .response info =>
            match results.get? info.op_idx with
            | none => .halt (.error ())
            | some ref_result =>
              match parse_response parseJson ap ref_result fallback with
              | .error _ => .halt (.error ())
              | .ok rp =>
                match rp with
                | .stringValue value _ _ =>
                  if value == "" then .halt (.ok none)
                  else .next (st.withUrl
                    (strReplace st.translated_url (bracePattern p.name) value))
                | .intValue value _ _ =>
                  .next (st.withUrl
                    (strReplace st.translated_url (bracePattern p.name) (intToString value)))
                | _ => .halt (.error ())
          | .parameter _ => .halt (.error ())
        | .stringValue value _ _ =>
          .next { st with query_params := st.query_params ++ [p.name ++ "=" ++ value] }
        | .intValue value _ _ =>
          .next { st with query_params :=
            st.query_params ++ [p.name ++ "=" ++ intToString value] }
        | _ => .halt (.error ())
      | .unsupported => .next st

/-- Assemble the final `HTTPParameters` after the loop: empty accumulators
yield `none` maps, non-empty ones go through `parameters_to_form_data`
(whose panics propagate), and query parameters are appended after `?` joined
by `&`. -/
def transFinish (st : TransState) : Except Unit (Option HTTPParameters) := do
  let form_data ←
    if st.form_params.isEmpty then Except.ok none
    else match parameters_to_form_data st.form_params with
      | none => Except.error ()
      | some m => Except.ok (some m)
  let body_data ←
    if st.body_params.isEmpty then Except.ok none
    else match parameters_to_form_data st.body_params with
      | none => Except.error ()
      | some m => Except.ok (some m)
  let file_data ←
    if st.file_params.isEmpty then Except.ok none
    else match parameters_to_form_data st.file_params with
      | none => Except.error ()
      | some m => Except.ok (some m)
  let translated_url :=
    if st.query_params.isEmpty then st.translated_url
    else st.translated_url ++ "?" ++ String.intercalate "&" st.query_params
  pure (some ⟨translated_url, form_data, file_data, body_data⟩)

/-- The loop of `translate_parameters`. -/
def transGo (parseJson : String → Option Json) (amos_params : List Parameter)
    (results : List InvokeResult) : List GeneratedParameter → TransState →
    Except Unit (Option HTTPParameters)
  | [], st => transFinish st
  | p :: ps, st =>
    match transStep parseJson amos_params results st p with
    | .halt r => r
    | .next st2 => transGo parseJson amos_params results ps st2

/-- `translate_parameters`: run the loop from the raw URL template and empty
accumulators. -/
def translate_parameters (parseJson : String → Option Json)
    (params : List GeneratedParameter) (amos_params : List Parameter)
    (results : List InvokeResult) (url : String) :
    Except Unit (Option HTTPParameters) :=
  transGo parseJson amos_params results params ⟨url, [], [], [], []⟩

/-- A generated parameter whose AMOS counterpart targets `Path` and whose
value resolves to nothing the URL could carry (written from the claim's
words): the value is `Empty`, a string value rendering to the empty string,
or a `Response` reference that resolves to an empty string. -/
def isBadPathParam (parseJson : String → Option Json) (amos_params : List Parameter)
    (results : List InvokeResult) (p : GeneratedParameter) : Prop :=
  ∃ ap, amos_params.find? (fun q => q.name == p.name) = some ap
    ∧ ap.meta_data = some (.http .path)
    ∧ (p.value = .empty
       ∨ (∃ s a, p.value = .stringValue "" s a)
       ∨ (∃ act ix fb info, p.value = .reference act ix fb (.response info)
            ∧ ∃ res, results.get? info.op_idx = some res
            ∧ ∃ s a, parse_response parseJson ap res fb = .ok (.stringValue "" s a)))

/-- Processing a bad Path parameter returns `None` from the whole
translation. -/
theorem transStep_badPath (parseJson : String → Option Json)
    (amos_params : List Parameter) (results : List InvokeResult)
    (st : TransState) (p : GeneratedParameter)
    (h : isBadPathParam parseJson amos_params results p) :
    transStep parseJson amos_params results st p = .halt (.ok none) := by
  obtain ⟨ap, hfind, hmeta, hval⟩ := h
  rcases hval with hv | ⟨s, a, hv⟩ | ⟨act, ix, fb, info, hv, res, hres, s, a, hpr⟩
  · simp [transStep, hfind, hmeta, hv]
  · simp [transStep, hfind, hmeta, hv]
  · simp [transStep, hfind, hmeta, hv, ← List.get?_eq_getElem?, hres, hpr]

/-- Every early return of the loop body is either the `None` abort or a
panic — a successful `HTTPParameters` value is only assembled after the loop
ends. -/
theorem transStep_halt_cases (parseJson : String → Option Json)
    (amos_params : List Parameter) (results : List InvokeResult)
    (st : TransState) (p : GeneratedParameter) (r : Except Unit (Option HTTPParameters))
    (h : transStep parseJson amos_params results st p = .halt r) :
    r = .ok none ∨ r = .error () := by
  unfold transStep at h
  repeat' split at h
  all_goals first
    | (injection h with h; rw [← h]; simp)
    | injection h

/-- If some parameter in the remaining list forces a halt (abort or panic),
the loop never produces a successful translation. -/
theorem transGo_never_some_of_bad (parseJson : String → Option Json)
    (amos_params : List Parameter) (results : List InvokeResult)
    (bad : GeneratedParameter → Prop)
    (hbadstep : ∀ st p, bad p →
      transStep parseJson amos_params results st p = .halt (.ok none)
        ∨ transStep parseJson amos_params results st p = .halt (.error ())) :
    ∀ (ps : List GeneratedParameter) (st : TransState), (∃ p ∈ ps, bad p) →
      ∀ r, transGo parseJson amos_params results ps st ≠ .ok (some r) := by
  intro ps
  induction ps with
  | nil => intro st h r; simp at h
  | cons p ps ih =>
    intro st h r hgo
    rcases h with ⟨q, hq, hbad⟩
    rcases List.mem_cons.mp hq with hq | hq
    · subst hq
      rcases hbadstep st q hbad with h1 | h1 <;>
        simp only [transGo, h1] at hgo <;> cases hgo
    · cases hstep : transStep parseJson amos_params results st p with
      | halt r0 =>
        simp only [transGo, hstep] at hgo
        rcases transStep_halt_cases parseJson amos_params results st p r0 hstep with h2 | h2 <;>
          rw [h2] at hgo <;> cases hgo
      | next st2 =>
        simp only [transGo, hstep] at hgo
        exact ih st2 ⟨q, hq, hbad⟩ r hgo

/-- C8: whenever some generated parameter's AMOS target is `Path` and its
value is `Empty`, an empty string, or a `Response` reference resolving to the
empty string, and the translation does not panic on an unrelated parameter,
`translate_parameters` returns `None`.  (Independently of the panic
hypothesis, the proof shows a successful `HTTPParameters` is impossible.) -/
theorem C8_empty_path_gives_none (parseJson : String → Option Json)
    (params : List GeneratedParameter) (amos_params : List Parameter)
    (results : List InvokeResult) (url : String)
    (hnp : translate_parameters parseJson params amos_params results url ≠ .error ())
    (hbad : ∃ p ∈ params, isBadPathParam parseJson amos_params results p) :
    translate_parameters parseJson params amos_params results url = .ok none := by
  cases hres : translate_parameters parseJson params amos_params results url with
  | error e => cases e; exact absurd hres hnp
  | ok o =>
    cases o with
    | none => rfl
    | some r =>
      have hnever := transGo_never_some_of_bad parseJson amos_params results
        (isBadPathParam parseJson amos_params results)
        (fun st p hb => Or.inl (transStep_badPath parseJson amos_params results st p hb))
        params ⟨url, [], [], [], []⟩ hbad r
      unfold translate_parameters at hres
      exact absurd hres hnever

/-- The bad Path parameter of the C8 witness: an `Empty` value. -/
def c8param : GeneratedParameter := ⟨"p", .empty, none⟩

/-- The AMOS parameter list of the C8 witness: `p` targets `Path`. -/
def c8amos : List Parameter := [⟨"p", .string, true, .unknown, some (.http .path)⟩]

/-- A parser modelling a payload that `serde_json` cannot parse (never
consulted by the witnesses). -/
def noJson : String → Option Json := fun _ => none

/-- C8: the concrete translation of the witness input evaluates to `None`. -/
theorem c8eval : translate_parameters noJson [c8param] c8amos [] "/x/\x7bp\x7d" = .ok none := rfl

/-- C8: witness instantiating `C8_empty_path_gives_none` on a Path parameter
holding `Empty`. -/
theorem C8_witness :
    translate_parameters noJson [c8param] c8amos [] "/x/\x7bp\x7d" = .ok none :=
  C8_empty_path_gives_none noJson [c8param] c8amos [] "/x/\x7bp\x7d"
    (fun hcon => by rw [c8eval] at hcon; cases hcon)
    ⟨c8param, List.mem_singleton.mpr rfl,
      ⟨⟨"p", .string, true, .unknown, some (.http .path)⟩, rfl, rfl, Or.inl rfl⟩⟩

/-- The generated parameter an inactive reference synthesizes to. -/
def inactiveNameParam : GeneratedParameter := ⟨"REFERENCE - Inactive", .empty, none⟩

/-- C10 counterexample input: an empty Path string parameter comes BEFORE the
inactive-reference parameter. -/
def c10params : List GeneratedParameter :=
  [⟨"a", .stringValue "" 1 true, none⟩, inactiveNameParam]

/-- C10 counterexample AMOS parameters: only `a`, targeting `Path`; no AMOS
parameter is named "REFERENCE - Inactive". -/
def c10amos : List Parameter := [⟨"a", .string, true, .owned, some (.http .path)⟩]

/-- C10: counterexample to the claim as stated.  The generated operation
contains a parameter named "REFERENCE - Inactive" and no AMOS parameter has
that name, yet translation does NOT hit the unwrap panic: it aborts with
`None` at the earlier empty Path parameter before ever looking the name up. -/
theorem C10_cex :
    (c10amos.all fun ap => ap.name != "REFERENCE - Inactive") = true
      ∧ translate_parameters noJson c10params c10amos [] "/x/\x7ba\x7d" = .ok none :=
  ⟨rfl, rfl⟩

/-- C10 (amended): synthesis of an inactive reference emits a parameter named
"REFERENCE - Inactive"; since no AMOS parameter carries that name, HTTP
translation of a generated operation containing such a parameter can never
produce an HTTP call — it hits the unwrap-on-`None` panic when the loop
reaches that parameter, unless it has already aborted with `None` at an
earlier parameter. -/
theorem C10_inactive_name_breaks_translation :
    (∀ (ops : List OpVals) (generated_op : OpVals) (out : GeneratedOperation) (j : Nat)
        (ix : Nat × Nat) (fb : ParameterValue) (rel : Relation),
        synthesize_operation ops generated_op = some out →
        generated_op.2.get? j = some (.reference false ix fb rel) →
        ∃ gp ∈ out.parameters, gp.name = "REFERENCE - Inactive")
    ∧ ∀ (parseJson : String → Option Json) (params : List GeneratedParameter)
        (amos_params : List Parameter) (results : List InvokeResult) (url : String),
        (∀ ap ∈ amos_params, (ap.name == "REFERENCE - Inactive") = false) →
        (∃ p ∈ params, p.name = "REFERENCE - Inactive") →
        ∀ r, translate_parameters parseJson params amos_params results url
          ≠ .ok (some r) := by
  constructor
  · intro ops generated_op out j ix fb rel hsyn hval
    unfold synthesize_operation at hsyn
    cases hsl : synthSlots ops generated_op.1 0 generated_op.2 with
    | none => rw [hsl] at hsyn; cases hsyn
    | some l =>
      rw [hsl] at hsyn
      injection hsyn with hout
      subst hout
      exact ⟨⟨"REFERENCE - Inactive", fb, none⟩,
        synthSlots_inactive_ref_mem ops generated_op.1 generated_op.2 0 j l ix fb rel hsl hval,
        rfl⟩
  · intro parseJson params amos_params results url hnone hbad r
    have hstep : ∀ st p, p.name = "REFERENCE - Inactive" →
        transStep parseJson amos_params results st p = .halt (.ok none)
          ∨ transStep parseJson amos_params results st p = .halt (.error ()) := by
      intro st p hp
      right
      have hfind : amos_params.find? (fun ap => ap.name == p.name) = none := by
        apply List.find?_eq_none.mpr
        intro ap hap
        rw [hp]
        simp only [Bool.not_eq_true]
        exact hnone ap hap
      simp [transStep, hfind]
    exact transGo_never_some_of_bad parseJson amos_params results
      (fun p => p.name = "REFERENCE - Inactive") hstep params ⟨url, [], [], [], []⟩
      hbad r

/-- C10: witness instantiating both halves of
`C10_inactive_name_breaks_translation` — the synthesis half on the inactive
reference slot of `inactiveRefVals`, the translation half on a singleton
parameter list whose only name is "REFERENCE - Inactive". -/
theorem C10_witness :
    (∃ gp ∈ (⟨"getThing",
        [⟨"REFERENCE - Inactive", .stringValue "fb" 1 true, none⟩]⟩ :
          GeneratedOperation).parameters, gp.name = "REFERENCE - Inactive")
      ∧ translate_parameters noJson [inactiveNameParam] [] [] "/x"
          ≠ .ok (some ⟨"/x", none, none, none⟩) :=
  ⟨C10_inactive_name_breaks_translation.1 [] (opWithOptPath, inactiveRefVals)
      ⟨"getThing", [⟨"REFERENCE - Inactive", .stringValue "fb" 1 true, none⟩]⟩
      0 (0, 0) (.stringValue "fb" 1 true)
      (.parameter ⟨"getThing", "id", .string, 1, 0, 0⟩) rfl rfl,
   C10_inactive_name_breaks_translation.2 noJson [inactiveNameParam] [] [] "/x"
      (fun ap hap => absurd hap (List.not_mem_nil ap))
      ⟨inactiveNameParam, List.mem_singleton.mpr rfl, rfl⟩
      ⟨"/x", none, none, none⟩⟩

end QuickREST
